import Mathlib

/-!
Verification development for the Lingualink server core: a shallow
embedding of the credential store / verification cache
(src/lingualink/auth/auth_service.py, redis_cache.py,
models/database.py), the backend load balancer
(src/lingualink/core/load_balancer.py) and the dispatcher / response
parser (src/lingualink/core/llm_service_v2.py), together with theorems
settling the specification's claims about them.

Modelling conventions: wall-clock instants are natural numbers for the
credential store (datetime comparisons) and rationals for probe / request
latencies (Python floats are modelled as exact rationals); Python dicts
are association lists in insertion order; a SQLAlchemy session that may
raise is modelled by an explicit fault flag per fallible primitive, an
exception being caught exactly where the source catches it.
-/

namespace Lingualink

/-- Association-list lookup, mirroring Python dict indexing / `.get`. -/
def lookupA {κ β : Type} [DecidableEq κ] : List (κ × β) → κ → Option β
  | [], _ => none
  | p :: rest, k => if p.1 = k then some p.2 else lookupA rest k

/-- Association-list insert-or-replace, mirroring Python `d[k] = v`
(an existing key keeps its position, a new key is appended). -/
def setA {κ β : Type} [DecidableEq κ] : List (κ × β) → κ → β → List (κ × β)
  | [], k, v => [(k, v)]
  | p :: rest, k, v => if p.1 = k then (k, v) :: rest else p :: setA rest k v

/-- Update the value at a key in place when present (Python mutating an
existing dict entry); absent keys leave the list unchanged. -/
def updateA {κ β : Type} [DecidableEq κ] (l : List (κ × β)) (k : κ) (f : β → β) :
    List (κ × β) :=
  l.map (fun p => if p.1 = k then (p.1, f p.2) else p)

/-- Association-list deletion, mirroring Redis `DELETE key`. -/
def eraseA {κ β : Type} [DecidableEq κ] : List (κ × β) → κ → List (κ × β)
  | [], _ => []
  | p :: rest, k => if p.1 = k then eraseA rest k else p :: eraseA rest k

/-- Python str.strip default whitespace characters (ASCII range). -/
def isPySpace (c : Char) : Bool :=
  c = ' ' ∨ c = '\t' ∨ c = '\n' ∨ c = '\r' ∨ c = '\x0b' ∨ c = '\x0c'

/-- Python str.strip: drop leading and trailing whitespace. -/
def pyStrip (s : String) : String :=
  String.mk (((s.data.dropWhile isPySpace).reverse.dropWhile isPySpace).reverse)

/-- Python s[:n]: the first n characters. -/
def pySlice (s : String) (n : Nat) : String :=
  String.mk (s.data.take n)

/-- Python s.split on a single newline character. -/
def splitOnNewline (s : String) : List String :=
  go [] s.data
where
  go (acc : List Char) : List Char → List String
    | [] => [String.mk acc.reverse]
    | c :: rest =>
      if c = '\n' then String.mk acc.reverse :: go [] rest
      else go (c :: acc) rest

/-- Python "\n".join. -/
def joinNL : List String → String
  | [] => ""
  | [x] => x
  | x :: y :: rest => x ++ "\n" ++ joinNL (y :: rest)

/-! ## Credential store records (models/database.py, class APIKey) -/

/-- One row of the api_keys table (fields the verification logic reads;
timestamps are Nat instants). -/
structure APIKey where
  api_key : String
  name : String
  expires_at : Option Nat := none
  is_active : Bool := true
  usage_count : Nat := 0
  is_admin : Bool := false
  last_used_at : Option Nat := none
  deriving Repr, DecidableEq

/-- APIKey.is_expired: no expiry means never expired, otherwise expired
iff the current instant is strictly past the expiry
(`datetime.utcnow() > self.expires_at`). -/
def APIKey.is_expired (r : APIKey) (now : Nat) : Bool :=
  match r.expires_at with
  | none => false
  | some t => decide (t < now)

/-- APIKey.is_valid: active and not expired. -/
def APIKey.is_valid (r : APIKey) (now : Nat) : Bool :=
  r.is_active && !(r.is_expired now)

/-- The credential store contents: the rows of the api_keys table. -/
abbrev Database := List APIKey

/-- session.query(APIKey).filter(APIKey.api_key == k).first(). -/
def findRecord : Database → String → Option APIKey
  | [], _ => none
  | r :: rest, k => if r.api_key = k then some r else findRecord rest k

/-- Mutate the (unique) record holding the given secret; other rows are
untouched. -/
def updateRecord (db : Database) (k : String) (f : APIKey → APIKey) : Database :=
  db.map (fun r => if r.api_key = k then f r else r)

/-! ## Redis verification cache (auth/redis_cache.py, class RedisCache) -/

/-- The JSON value stored under a cache key by set_api_key_auth. -/
structure CacheEntry where
  is_valid : Bool
  is_admin : Bool
  cached_at : Nat
  deriving Repr, DecidableEq

/-- Redis cache state: the enabled flag (false when the connection
failed at startup) and the stored key/value pairs. -/
structure RedisCache where
  enabled : Bool := true
  entries : List (String × CacheEntry) := []
  deriving Repr, DecidableEq

/-- RedisCache._get_cache_key: the literal text api_key_auth: followed
by the first 16 characters of the secret. -/
def get_cache_key (api_key : String) : String :=
  "api_key_auth:" ++ pySlice api_key 16

/-- RedisCache.get_api_key_auth: none when the cache is disabled or the
key is absent, otherwise the stored (is_valid, is_admin) pair. -/
def RedisCache.get_api_key_auth (c : RedisCache) (api_key : String) :
    Option (Bool × Bool) :=
  if !c.enabled then none
  else
    match lookupA c.entries (get_cache_key api_key) with
    | some e => some (e.is_valid, e.is_admin)
    | none => none

/-- RedisCache.set_api_key_auth: a no-op when the cache is disabled and
when is_valid is false (only positive results are stored); otherwise
writes the entry under the derived key. -/
def RedisCache.set_api_key_auth (c : RedisCache) (api_key : String)
    (is_valid is_admin : Bool) (now : Nat) : RedisCache :=
  if !c.enabled then c
  else if !is_valid then c
  else
    let e : CacheEntry := { is_valid := is_valid, is_admin := is_admin, cached_at := now }
    { c with entries := setA c.entries (get_cache_key api_key) e }

/-- RedisCache.invalidate_api_key: deletes the entry under the derived
key (no-op when the cache is disabled). -/
def RedisCache.invalidate_api_key (c : RedisCache) (api_key : String) : RedisCache :=
  if !c.enabled then c
  else { c with entries := eraseA c.entries (get_cache_key api_key) }

/-! ## Auth service (auth/auth_service.py, class AuthService) -/

/-- Outcomes of the fallible SQLAlchemy session primitives inside one
verification: queryFails means the record lookup raises, commitFails
means the usage-counter update / commit raises. The except-branch of the
source catches either, rolls back and returns. -/
structure DbFaults where
  queryFails : Bool := false
  commitFails : Bool := false
  deriving Repr, DecidableEq

/-- The fault-free session. -/
def noFaults : DbFaults := {}

namespace AuthService

/-- AuthService._verify_api_key_from_db: look the record up, reject an
absent or invalid record, otherwise bump the usage counter, commit,
cache the positive result and accept. Any raised exception rolls the
transaction back and yields (false, false). Returns the (valid, admin)
pair with the resulting store and cache. -/
def verify_api_key_from_db (f : DbFaults) (db : Database) (cache : RedisCache)
    (now : Nat) (api_key : String) : (Bool × Bool) × Database × RedisCache :=
  if f.queryFails then ((false, false), db, cache)
  else
    match findRecord db api_key with
    | none => ((false, false), db, cache)
    | some r =>
      let is_admin := r.is_admin
      if !(r.is_valid now) then ((false, is_admin), db, cache)
      else if f.commitFails then ((false, false), db, cache)
      else
        let db2 := updateRecord db api_key (fun rec =>
          { rec with usage_count := rec.usage_count + 1, last_used_at := some now })
        let cache2 := cache.set_api_key_auth api_key true is_admin now
        ((true, is_admin), db2, cache2)

/-- AuthService._async_update_usage_stats: best-effort usage bump on the
cache-hit path (its own exceptions are swallowed). -/
def async_update_usage_stats (db : Database) (now : Nat) (api_key : String) :
    Database :=
  match findRecord db api_key with
  | none => db
  | some _ => updateRecord db api_key (fun rec =>
      { rec with usage_count := rec.usage_count + 1, last_used_at := some now })

/-- AuthService.verify_api_key: authentication disabled accepts
everything; a cached positive entry is returned directly (with the
usage bump); a cached negative entry or a miss falls through to the
database path. -/
def verify_api_key (auth_enabled : Bool) (f : DbFaults) (db : Database)
    (cache : RedisCache) (now : Nat) (api_key : String) :
    (Bool × Bool) × Database × RedisCache :=
  if !auth_enabled then ((true, false), db, cache)
  else
    match cache.get_api_key_auth api_key with
    | some (true, is_admin) =>
        ((true, is_admin), async_update_usage_stats db now api_key, cache)
    | some (false, _) => verify_api_key_from_db f db cache now api_key
    | none => verify_api_key_from_db f db cache now api_key

/-- AuthService.revoke_api_key: set is_active to false, commit, then
invalidate the cache entry; false on an absent record or an exception. -/
def revoke_api_key (f : DbFaults) (db : Database) (cache : RedisCache)
    (api_key : String) : Bool × Database × RedisCache :=
  if f.queryFails then (false, db, cache)
  else
    match findRecord db api_key with
    | none => (false, db, cache)
    | some _ =>
      if f.commitFails then (false, db, cache)
      else
        (true, updateRecord db api_key (fun r => { r with is_active := false }),
          cache.invalidate_api_key api_key)

/-- AuthService.set_admin_status: set is_admin and commit; the cache is
left untouched by this operation in the source. -/
def set_admin_status (f : DbFaults) (db : Database) (cache : RedisCache)
    (api_key : String) (is_admin : Bool) : Bool × Database × RedisCache :=
  if f.queryFails then (false, db, cache)
  else
    match findRecord db api_key with
    | none => (false, db, cache)
    | some _ =>
      if f.commitFails then (false, db, cache)
      else
        (true, updateRecord db api_key (fun r => { r with is_admin := is_admin }),
          cache)

end AuthService

/-! ## Response parser (core/llm_service_v2.py,
LoadBalancedLLMService._parse_model_response) -/

/-- Split a string at the first ASCII or full-width colon, mirroring
re.split on the class [:：] with maxsplit 1: some (before, after) when a
colon occurs, none otherwise. -/
def splitFirstColon (s : String) : Option (String × String) :=
  go [] s.data
where
  go (acc : List Char) : List Char → Option (String × String)
    | [] => none
    | c :: rest =>
      if c = ':' ∨ c = '：' then some (String.mk acc.reverse, String.mk rest)
      else go (c :: acc) rest

/-- Loop state of the parser: the section dict built so far (raw_text
first), the currently open section header and its accumulated value
lines. -/
structure ParseState where
  dict : List (String × String)
  current : Option String
  lines : List String
  deriving Repr, DecidableEq

/-- One iteration of the parser's line loop: blank lines are preserved
inside an open section; a line whose part before the first colon trims
to a non-empty header flushes the open section and opens a new one; any
other non-blank line is appended to the open section. -/
def parseLine (st : ParseState) (line : String) : ParseState :=
  let stripped := pyStrip line
  if stripped = "" then
    match st.current with
    | some _ => { st with lines := st.lines ++ [""] }
    | none => st
  else
    match splitFirstColon stripped with
    | some (l, r) =>
      let new_key_candidate := pyStrip l
      let new_value_first_line := pyStrip r
      if new_key_candidate ≠ "" then
        let d := match st.current with
          | some ck => setA st.dict ck (joinNL st.lines)
          | none => st.dict
        { dict := d, current := some new_key_candidate,
          lines := [new_value_first_line] }
      else
        match st.current with
        | some _ => { st with lines := st.lines ++ [stripped] }
        | none => st
    | none =>
      match st.current with
      | some _ => { st with lines := st.lines ++ [stripped] }
      | none => st

/-- LoadBalancedLLMService._parse_model_response: seed the dict with
raw_text mapped to the whole reply, fold the line loop over the
stripped reply split on newlines, and flush the last open section. -/
def parse_model_response (content : String) : List (String × String) :=
  let st0 : ParseState := { dict := [("raw_text", content)], current := none, lines := [] }
  let st := (splitOnNewline (pyStrip content)).foldl parseLine st0
  match st.current with
  | some ck => setA st.dict ck (joinNL st.lines)
  | none => st.dict

/-- The section header a line would open, when it opens one: the
non-empty trim of the part before the line's first colon. -/
def lineKey (line : String) : Option String :=
  let stripped := pyStrip line
  if stripped = "" then none
  else
    match splitFirstColon stripped with
    | some (l, _) =>
      let k := pyStrip l
      if k ≠ "" then some k else none
    | none => none

/-! ## Load balancer (core/load_balancer.py) -/

/-- Enum BackendStatus. -/
inductive BackendStatus where
  | HEALTHY
  | UNHEALTHY
  | DISABLED
  deriving Repr, DecidableEq

/-- Enum LoadBalanceStrategy. -/
inductive LoadBalanceStrategy where
  | ROUND_ROBIN
  | WEIGHTED_ROUND_ROBIN
  | LEAST_CONNECTIONS
  | RANDOM
  | CONSISTENT_HASH
  | RESPONSE_TIME
  deriving Repr, DecidableEq

/-- Dataclass BackendConfig (the timeout float is modelled as a
rational). -/
structure BackendConfig where
  name : String
  url : String := ""
  model_name : String := ""
  api_key : String := ""
  weight : Nat := 1
  max_connections : Nat := 50
  timeout : Rat := 30
  priority : Int := 0
  tags : List String := []
  deriving Repr, DecidableEq

/-- Dataclass BackendMetrics (response times are rationals; Python's
float mean is modelled as the exact rational mean). -/
structure BackendMetrics where
  total_requests : Nat := 0
  successful_requests : Nat := 0
  failed_requests : Nat := 0
  active_connections : Nat := 0
  average_response_time : Rat := 0
  response_times : List Rat := []
  last_check_time : Rat := 0
  status : BackendStatus := .HEALTHY
  consecutive_failures : Nat := 0
  last_error : Option String := none
  deriving Repr, DecidableEq

/-- BackendMetrics.update_response_time: append the sample, keep the
last 50, recompute the mean. -/
def BackendMetrics.update_response_time (m : BackendMetrics)
    (response_time : Rat) : BackendMetrics :=
  let rts0 := m.response_times ++ [response_time]
  let rts := if rts0.length > 50 then rts0.drop (rts0.length - 50) else rts0
  { m with response_times := rts,
           average_response_time := rts.sum / (rts.length : Rat) }

/-- Class LLMLoadBalancer: backend configurations and metrics keyed by
name in insertion order, the strategy, the shared round-robin cursor,
the consistent-hash ring and the probe tuning knobs. -/
structure LLMLoadBalancer where
  backends : List (String × BackendConfig)
  strategy : LoadBalanceStrategy := .ROUND_ROBIN
  metrics : List (String × BackendMetrics)
  round_robin_index : Nat := 0
  hash_ring : List (Nat × String) := []
  health_check_interval : Rat := 30
  max_retries : Nat := 2
  failure_threshold : Nat := 3
  deriving Repr, DecidableEq

/-- LLMLoadBalancer._build_hash_ring, with the MD5-hexdigest-as-integer
function supplied as the external oracle md5: weight * 10 virtual nodes
per backend, keyed by md5 of the text name#i. -/
def build_hash_ring (md5 : String → Nat)
    (backends : List (String × BackendConfig)) : List (Nat × String) :=
  backends.foldl
    (fun ring p =>
      (List.range (p.2.weight * 10)).foldl
        (fun ring i => setA ring (md5 (p.1 ++ "#" ++ toString i)) p.1) ring)
    []

/-- LLMLoadBalancer._get_available_backends: the names whose metrics
status is HEALTHY, in metrics order. -/
def LLMLoadBalancer.available_backends (lb : LLMLoadBalancer) : List String :=
  (lb.metrics.filter (fun p => decide (p.2.status = .HEALTHY))).map Prod.fst

/-- Whether the metrics entry of a name exists and is HEALTHY
(`self.metrics[backend_name].status == BackendStatus.HEALTHY`). -/
def LLMLoadBalancer.healthyB (lb : LLMLoadBalancer) (backend_name : String) : Bool :=
  match lookupA lb.metrics backend_name with
  | some m => decide (m.status = .HEALTHY)
  | none => false

/-- LLMLoadBalancer._round_robin_select: the cursor modulo the healthy
list picks, then the cursor advances modulo the same length. Returns the
pick with the new cursor. -/
def round_robin_select (lb : LLMLoadBalancer) (av : List String) :
    Option String × Nat :=
  match av with
  | [] => (none, lb.round_robin_index)
  | a :: rest =>
    let avl := a :: rest
    let i := lb.round_robin_index % avl.length
    (some (avl.get ⟨i, Nat.mod_lt _ (Nat.succ_pos rest.length)⟩),
      (lb.round_robin_index + 1) % avl.length)

/-- Weight of a backend as read off the configuration table
(`self.backends[backend_name].weight`). -/
def LLMLoadBalancer.weightOf (lb : LLMLoadBalancer) (backend_name : String) : Nat :=
  ((lookupA lb.backends backend_name).map (fun c => c.weight)).getD 0

/-- LLMLoadBalancer._weighted_round_robin_select: the cursor walks the
multiset where each healthy name appears weight times; when that
multiset is empty the first healthy name is returned with the cursor
unchanged. -/
def weighted_round_robin_select (lb : LLMLoadBalancer) (av : List String) :
    Option String × Nat :=
  match av with
  | [] => (none, lb.round_robin_index)
  | a :: rest =>
    let avl := a :: rest
    let weighted := (avl.map (fun n => List.replicate (lb.weightOf n) n)).flatten
    match weighted with
    | [] => (some a, lb.round_robin_index)
    | w :: ws =>
      let wl := w :: ws
      let i := lb.round_robin_index % wl.length
      (some (wl.get ⟨i, Nat.mod_lt _ (Nat.succ_pos ws.length)⟩),
        (lb.round_robin_index + 1) % wl.length)

/-- Active connection count of a name as read off the metrics table. -/
def LLMLoadBalancer.connectionsOf (lb : LLMLoadBalancer) (backend_name : String) : Nat :=
  ((lookupA lb.metrics backend_name).map (fun m => m.active_connections)).getD 0

/-- LLMLoadBalancer._least_connections_select: starting from the first
healthy name with min-so-far infinity (none), keep the first name
attaining each strictly smaller connection count. -/
def least_connections_select (lb : LLMLoadBalancer) (av : List String) :
    Option String :=
  match av with
  | [] => none
  | a :: _ =>
    some ((av.foldl
      (fun (acc : String × Option Nat) n =>
        let c := lb.connectionsOf n
        match acc.2 with
        | none => (n, some c)
        | some m => if c < m then (n, some c) else acc)
      (a, none)).1)

/-- LLMLoadBalancer._random_select, with random.choice modelled as
indexing by an externally supplied number modulo the list length. -/
def random_select (av : List String) (rand : Nat) : Option String :=
  match av with
  | [] => none
  | a :: rest =>
    let avl := a :: rest
    some (avl.get ⟨rand % avl.length, Nat.mod_lt _ (Nat.succ_pos rest.length)⟩)

/-- Insertion step of sorting the ring by key. -/
def insertByKey (p : Nat × String) : List (Nat × String) → List (Nat × String)
  | [] => [p]
  | q :: rest => if p.1 ≤ q.1 then p :: q :: rest else q :: insertByKey p rest

/-- Ascending key sort of the ring (Python sorted over the dict keys). -/
def sortByKey : List (Nat × String) → List (Nat × String)
  | [] => []
  | p :: rest => insertByKey p (sortByKey rest)

/-- The ring node with the minimal key (Python min over the dict keys),
as the head of the sorted ring. -/
def ringMin (ring : List (Nat × String)) : Option (Nat × String) :=
  (sortByKey ring).head?

/-- LLMLoadBalancer._consistent_hash_select, applied to the already
hashed request key: walk the sorted ring keys and return the first node
at or after the hash point whose backend is HEALTHY; failing that,
consult only the minimal node — its backend when HEALTHY, otherwise no
backend at all. -/
def consistent_hash_select (lb : LLMLoadBalancer) (hash_value : Nat) :
    Option String :=
  match sortByKey lb.hash_ring with
  | [] => none
  | first :: rest =>
    match (first :: rest).find? (fun p => decide (hash_value ≤ p.1) && lb.healthyB p.2) with
    | some p => some p.2
    | none => if lb.healthyB first.2 then some first.2 else none

/-- Mean response time of a name as read off the metrics table. -/
def LLMLoadBalancer.avgTimeOf (lb : LLMLoadBalancer) (backend_name : String) : Rat :=
  ((lookupA lb.metrics backend_name).map (fun m => m.average_response_time)).getD 0

/-- LLMLoadBalancer._response_time_select: keep the first name attaining
each strictly smaller positive mean response time, starting from the
first healthy name with best-so-far infinity (none). -/
def response_time_select (lb : LLMLoadBalancer) (av : List String) :
    Option String :=
  match av with
  | [] => none
  | a :: _ =>
    some ((av.foldl
      (fun (acc : String × Option Rat) n =>
        let t := lb.avgTimeOf n
        match acc.2 with
        | none => if 0 < t then (n, some t) else acc
        | some m => if 0 < t ∧ t < m then (n, some t) else acc)
      (a, none)).1)

/-- Python `request_hash or "default"`: none and the empty string are
both falsy. -/
def requestKeyOf (request_hash : Option String) : String :=
  match request_hash with
  | none => "default"
  | some s => if s = "" then "default" else s

/-- The strategy dispatch of LLMLoadBalancer.select_backend: the pick
and the round-robin cursor after the pick. -/
def strategy_pick (md5 : String → Nat) (rand : Nat) (lb : LLMLoadBalancer)
    (request_hash : Option String) (av : List String) : Option String × Nat :=
  match lb.strategy with
  | .ROUND_ROBIN => round_robin_select lb av
  | .WEIGHTED_ROUND_ROBIN => weighted_round_robin_select lb av
  | .LEAST_CONNECTIONS => (least_connections_select lb av, lb.round_robin_index)
  | .RANDOM => (random_select av rand, lb.round_robin_index)
  | .CONSISTENT_HASH =>
      (consistent_hash_select lb (md5 (requestKeyOf request_hash)),
        lb.round_robin_index)
  | .RESPONSE_TIME => (response_time_select lb av, lb.round_robin_index)

/-- LLMLoadBalancer.select_backend: filter to healthy names, dispatch on
the strategy, and increment the chosen backend's active connection
count. Returns the pick and the updated balancer. -/
def LLMLoadBalancer.select_backend (md5 : String → Nat) (rand : Nat)
    (lb : LLMLoadBalancer) (request_hash : Option String) :
    Option String × LLMLoadBalancer :=
  let av := lb.available_backends
  if av.isEmpty then (none, lb)
  else
    let picked := strategy_pick md5 rand lb request_hash av
    let lb1 := { lb with round_robin_index := picked.2 }
    match picked.1 with
    | some b =>
        let ms := updateA lb1.metrics b (fun m =>
          { m with active_connections := m.active_connections + 1 })
        (some b, { lb1 with metrics := ms })
    | none => (none, lb1)

/-- LLMLoadBalancer.release_connection: decrement the backend's active
connection count when it is positive. -/
def LLMLoadBalancer.release_connection (lb : LLMLoadBalancer)
    (backend_name : String) : LLMLoadBalancer :=
  match lookupA lb.metrics backend_name with
  | none => lb
  | some m =>
    if m.active_connections > 0 then
      let ms := updateA lb.metrics backend_name (fun m =>
        { m with active_connections := m.active_connections - 1 })
      { lb with metrics := ms }
    else lb

/-- LLMLoadBalancer.record_request_result: bump the totals; a success
also records the response time, a failure stores the error text. -/
def LLMLoadBalancer.record_request_result (lb : LLMLoadBalancer)
    (backend_name : String) (success : Bool) (response_time : Rat)
    (error : Option String) : LLMLoadBalancer :=
  match lookupA lb.metrics backend_name with
  | none => lb
  | some _ =>
    let f := fun (m : BackendMetrics) =>
      let m1 := { m with total_requests := m.total_requests + 1 }
      if success then
        let m2 := { m1 with successful_requests := m1.successful_requests + 1 }
        m2.update_response_time response_time
      else
        { m1 with failed_requests := m1.failed_requests + 1, last_error := error }
    { lb with metrics := updateA lb.metrics backend_name f }

/-- Outcome of one health probe of one backend: ok carries the measured
latency (HTTP 200); err carries the exception or non-200 message. -/
inductive ProbeOutcome where
  | ok (response_time : Rat)
  | err (message : String)
  deriving Repr, DecidableEq

/-- Metrics transition of LLMLoadBalancer._check_backend_health: a
successful probe sets HEALTHY, zeroes consecutive_failures, stamps the
check time and records the latency; a failed probe increments
consecutive_failures, stores the error and stamps the check time, and
marks UNHEALTHY once the failure threshold is reached. -/
def checkBackendHealth (failure_threshold : Nat) (now : Rat)
    (outcome : ProbeOutcome) (m : BackendMetrics) : BackendMetrics :=
  match outcome with
  | .ok response_time =>
      ({ m with status := .HEALTHY, consecutive_failures := 0,
                last_check_time := now }).update_response_time response_time
  | .err e =>
      let m1 := { m with consecutive_failures := m.consecutive_failures + 1,
                         last_error := some e, last_check_time := now }
      if m1.consecutive_failures ≥ failure_threshold then
        { m1 with status := .UNHEALTHY }
      else m1

/-- LLMLoadBalancer._check_backend_health at the balancer level: apply
the metrics transition to the probed backend's entry. -/
def LLMLoadBalancer.check_backend_health (lb : LLMLoadBalancer)
    (backend_name : String) (now : Rat) (outcome : ProbeOutcome) :
    LLMLoadBalancer :=
  let ms := updateA lb.metrics backend_name
    (checkBackendHealth lb.failure_threshold now outcome)
  { lb with metrics := ms }

/-- LLMLoadBalancer.enable_backend: set the backend's status to HEALTHY
(nothing else changes). -/
def LLMLoadBalancer.enable_backend (lb : LLMLoadBalancer)
    (backend_name : String) : LLMLoadBalancer :=
  match lookupA lb.metrics backend_name with
  | none => lb
  | some _ =>
    let ms := updateA lb.metrics backend_name (fun m => { m with status := .HEALTHY })
    { lb with metrics := ms }

/-- LLMLoadBalancer.disable_backend: set the backend's status to
DISABLED. -/
def LLMLoadBalancer.disable_backend (lb : LLMLoadBalancer)
    (backend_name : String) : LLMLoadBalancer :=
  match lookupA lb.metrics backend_name with
  | none => lb
  | some _ =>
    let ms := updateA lb.metrics backend_name (fun m => { m with status := .DISABLED })
    { lb with metrics := ms }

/-! ## Dispatcher retry loop (core/llm_service_v2.py,
LoadBalancedLLMService.process_audio, load-balanced branch) -/

/-- Terminal outcome of the load-balanced branch of process_audio. -/
inductive ProcessOutcome where
  | success (backend : String)
  | noBackend
  | allFailed (backend : String) (error : String)
  | exhausted
  deriving Repr, DecidableEq

/-- Connection-accounting events of one request execution: select is
emitted exactly when select_backend returns a pick (the increment
site), release exactly at a release_connection call site. -/
inductive LBEvent where
  | select (backend : String)
  | release (backend : String)
  deriving Repr, DecidableEq

/-- Occurrences of one event in a trace. -/
def countEvent (evs : List LBEvent) (e : LBEvent) : Nat :=
  (evs.filter (fun x => decide (x = e))).length

/-- The attempt loop of process_audio, one recursive step per remaining
attempt (remaining starts at max_retries + 1). The upstream call
_make_request is an external effect, modelled by the oracle
attemptResult: some duration means the call returned a usable choice,
none means it raised (attemptError giving the message). clients is the
key set of the service's _clients dict. A backend whose client or
configuration is missing is skipped with a bare continue — without a
release. On a raise at the last attempt the loop reports allFailed;
running out of attempts falls through to the final error return. -/
def process_audio_loop (md5 : String → Nat) (rands : Nat → Nat)
    (attemptResult : Nat → Option Rat) (attemptError : Nat → String)
    (clients : List String) (request_hash : Option String) :
    Nat → Nat → LLMLoadBalancer → ProcessOutcome × LLMLoadBalancer × List LBEvent
  | 0, _, lb => (.exhausted, lb, [])
  | remaining + 1, attempt, lb =>
    let sel := lb.select_backend md5 (rands attempt) request_hash
    match sel.1 with
    | none => (.noBackend, sel.2, [])
    | some backend_name =>
      let lb1 := sel.2
      if clients.contains backend_name && (lookupA lb1.backends backend_name).isSome then
        match attemptResult attempt with
        | some duration =>
          let lb2 := lb1.record_request_result backend_name true duration none
          let lb3 := lb2.release_connection backend_name
          (.success backend_name, lb3, [.select backend_name, .release backend_name])
        | none =>
          let lb2 := lb1.record_request_result backend_name false 0
            (some (attemptError attempt))
          let lb3 := lb2.release_connection backend_name
          if remaining = 0 then
            (.allFailed backend_name (attemptError attempt), lb3,
              [.select backend_name, .release backend_name])
          else
            let rest := process_audio_loop md5 rands attemptResult attemptError
              clients request_hash remaining (attempt + 1) lb3
            (rest.1, rest.2.1, .select backend_name :: .release backend_name :: rest.2.2)
      else
        let rest := process_audio_loop md5 rands attemptResult attemptError
          clients request_hash remaining (attempt + 1) lb1
        (rest.1, rest.2.1, .select backend_name :: rest.2.2)

/-- The load-balanced branch of process_audio: run the attempt loop for
max_retries + 1 attempts starting at attempt 0. -/
def process_audio (md5 : String → Nat) (rands : Nat → Nat)
    (attemptResult : Nat → Option Rat) (attemptError : Nat → String)
    (clients : List String) (request_hash : Option String)
    (lb : LLMLoadBalancer) : ProcessOutcome × LLMLoadBalancer × List LBEvent :=
  process_audio_loop md5 rands attemptResult attemptError clients request_hash
    (lb.max_retries + 1) 0 lb


/-! ## Concrete states used by the claim theorems -/

/-- Two distinct 18-character secrets sharing their first 16 characters. -/
def kOne : String := "lls_AAAAAAAAAAAA11"

/-- The second colliding secret. -/
def kTwo : String := "lls_AAAAAAAAAAAA22"

/-- Store holding only the first secret's valid non-admin record. -/
def dbC1 : Database := [{ api_key := kOne, name := "n" }]

/-- The state after a first, store-backed verification of the first
secret against an empty enabled cache at instant 10. -/
def stepC1 : (Bool × Bool) × Database × RedisCache :=
  AuthService.verify_api_key true noFaults dbC1 ({}) 10 kOne

/-- Store holding one valid non-admin record. -/
def dbC2 : Database := [{ api_key := "lls_adminkey42", name := "n" }]

/-- Cache holding a positive entry for that record's secret. -/
def cacheC2 : RedisCache :=
  { entries := [(get_cache_key "lls_adminkey42",
      { is_valid := true, is_admin := false, cached_at := 0 })] }

/-- Balancer with one backend that an operator has Disabled after two
consecutive probe failures. -/
def lbC3 : LLMLoadBalancer :=
  { backends := [("A", { name := "A" })],
    metrics := [("A", { status := .DISABLED, consecutive_failures := 2 })] }

/-- Balancer with a single Healthy round-robin backend sitting exactly
at its connection budget. -/
def lbC4 : LLMLoadBalancer :=
  { backends := [("A", { name := "A", max_connections := 50 })],
    strategy := .ROUND_ROBIN,
    metrics := [("A", { status := .HEALTHY, active_connections := 50 })] }

/-- A trivial stand-in for the MD5 oracle where the hash is irrelevant. -/
def md5zero : String → Nat := fun _ => 0

/-- Balancer with one Healthy round-robin backend and two retries. -/
def lbC5 : LLMLoadBalancer :=
  { backends := [("A", { name := "A" })], strategy := .ROUND_ROBIN,
    metrics := [("A", { status := .HEALTHY })], max_retries := 2 }

/-- A concrete MD5 oracle: every virtual node of backend A hashes to
100, every one of B to 200, any other string (such as the request key)
to 300. -/
def md5C6 : String → Nat := fun s =>
  match s.data with
  | 'A' :: _ => 100
  | 'B' :: _ => 200
  | _ => 300

/-- Configuration of backend A. -/
def cfgC6A : BackendConfig := { name := "A" }

/-- Configuration of backend B. -/
def cfgC6B : BackendConfig := { name := "B" }

/-- Consistent-hash balancer where A is Unhealthy, B is Healthy, and
the ring is built by _build_hash_ring over the md5C6 oracle. -/
def lbC6 : LLMLoadBalancer :=
  { backends := [("A", cfgC6A), ("B", cfgC6B)],
    strategy := .CONSISTENT_HASH,
    metrics := [("A", { status := .UNHEALTHY }), ("B", { status := .HEALTHY })],
    hash_ring := build_hash_ring md5C6 [("A", cfgC6A), ("B", cfgC6B)] }

/-- Store holding an active admin record whose expiry is instant 100. -/
def dbC8 : Database :=
  [{ api_key := "lls_boundary", name := "n", expires_at := some 100,
     is_admin := true }]

/-- Store holding one valid record, used by witnesses. -/
def dbW : Database := [{ api_key := "lls_wit", name := "n" }]

/-- Invariant of the parser's line loop: raw_text still maps to the
whole reply and no open section is named raw_text. -/
def ParserInv (content : String) (st : ParseState) : Prop :=
  lookupA st.dict "raw_text" = some content ∧
  ∀ ck, st.current = some ck → ck ≠ "raw_text"

/-! ## Association-list and sorting lemmas -/

theorem lookupA_updateA {κ β : Type} [DecidableEq κ] (l : List (κ × β)) (k : κ)
    (f : β → β) : lookupA (updateA l k f) k = (lookupA l k).map f := by
  induction l with
  | nil => rfl
  | cons p rest ih =>
    by_cases h : p.1 = k
    · simp [updateA, lookupA, h]
    · simpa [updateA, lookupA, h] using ih

theorem lookupA_updateA_ne {κ β : Type} [DecidableEq κ] (l : List (κ × β))
    (k k' : κ) (f : β → β) (h : k' ≠ k) :
    lookupA (updateA l k f) k' = lookupA l k' := by
  induction l with
  | nil => rfl
  | cons p rest ih =>
    by_cases hp : p.1 = k
    · have hkk' : ¬ k = k' := fun hh => h hh.symm
      simp [updateA, lookupA, hp, hkk']
      simpa [updateA] using ih
    · by_cases hp' : p.1 = k'
      · simp [updateA, lookupA, hp, hp', h]
      · simp [updateA, lookupA, hp, hp']
        simpa [updateA] using ih

theorem lookupA_setA_ne {κ β : Type} [DecidableEq κ] (l : List (κ × β))
    (k k' : κ) (v : β) (h : k' ≠ k) :
    lookupA (setA l k v) k' = lookupA l k' := by
  induction l with
  | nil => simp [setA, lookupA, Ne.symm h]
  | cons p rest ih =>
    by_cases hp : p.1 = k
    · have hp' : ¬ p.1 = k' := by rw [hp]; exact fun hh => h hh.symm
      simp [setA, lookupA, hp, hp', Ne.symm h]
    · simp [setA, lookupA, hp, ih]

theorem lookupA_eraseA_self {κ β : Type} [DecidableEq κ] (l : List (κ × β))
    (k : κ) : lookupA (eraseA l k) k = none := by
  induction l with
  | nil => rfl
  | cons p rest ih =>
    by_cases hp : p.1 = k
    · simpa [eraseA, hp] using ih
    · simpa [eraseA, lookupA, hp] using ih

theorem lookupA_isSome_mem {κ β : Type} [DecidableEq κ] (l : List (κ × β))
    (k : κ) (v : β) (h : lookupA l k = some v) : k ∈ l.map Prod.fst := by
  induction l with
  | nil => simp [lookupA] at h
  | cons p rest ih =>
    by_cases hp : p.1 = k
    · simp [hp.symm]
    · simp [lookupA, hp] at h
      simp [ih h]

theorem updateA_map_fst {κ β : Type} [DecidableEq κ] (l : List (κ × β)) (k : κ)
    (f : β → β) : (updateA l k f).map Prod.fst = l.map Prod.fst := by
  induction l with
  | nil => rfl
  | cons p rest ih =>
    by_cases hp : p.1 = k
    · simpa [updateA, hp] using ih
    · simpa [updateA, hp] using ih

theorem mem_insertByKey (p q : Nat × String) (l : List (Nat × String)) :
    q ∈ insertByKey p l ↔ q = p ∨ q ∈ l := by
  induction l with
  | nil => simp [insertByKey]
  | cons x rest ih =>
    by_cases h : p.1 ≤ x.1
    · simp [insertByKey, h]
    · simp [insertByKey, h, ih]
      tauto

theorem mem_sortByKey (q : Nat × String) (l : List (Nat × String)) :
    q ∈ sortByKey l ↔ q ∈ l := by
  induction l with
  | nil => simp [sortByKey]
  | cons x rest ih => simp [sortByKey, mem_insertByKey, ih]

theorem insertByKey_ne_nil (p : Nat × String) (l : List (Nat × String)) :
    insertByKey p l ≠ [] := by
  cases l with
  | nil => simp [insertByKey]
  | cons x rest =>
    by_cases h : p.1 ≤ x.1 <;> simp [insertByKey, h]

theorem sortByKey_ne_nil (p : Nat × String) (l : List (Nat × String))
    (h : p ∈ l) : sortByKey l ≠ [] := by
  cases l with
  | nil => simp at h
  | cons x rest => simpa [sortByKey] using insertByKey_ne_nil x (sortByKey rest)

theorem countEvent_nil (e : LBEvent) : countEvent [] e = 0 := rfl

theorem countEvent_cons (x : LBEvent) (l : List LBEvent) (e : LBEvent) :
    countEvent (x :: l) e = (if x = e then 1 else 0) + countEvent l e := by
  by_cases h : x = e <;> simp [countEvent, List.filter_cons, h, Nat.add_comm]

/-- A left fold whose step either keeps the accumulated name or replaces
it with the current element ends on the initial name or a list member. -/
theorem foldl_fst_mem {β : Type} (g : (String × Option β) → String → (String × Option β))
    (hg : ∀ acc n, (g acc n).1 = n ∨ (g acc n).1 = acc.1) :
    ∀ (l : List String) (acc : String × Option β),
      (l.foldl g acc).1 = acc.1 ∨ (l.foldl g acc).1 ∈ l := by
  intro l
  induction l with
  | nil => intro acc; simp
  | cons n rest ih =>
    intro acc
    rcases ih (g acc n) with h | h
    · rcases hg acc n with h2 | h2
      · right
        simp [List.foldl_cons, h, h2]
      · left
        simp [List.foldl_cons, h, h2]
    · right
      simp [List.foldl_cons, h]


/-! ## Selection lemmas: preservation of the name sets and membership
of the pick -/

theorem available_sub (lb : LLMLoadBalancer) (b : String)
    (h : b ∈ lb.available_backends) : b ∈ lb.metrics.map Prod.fst := by
  rcases List.mem_map.1 h with ⟨p, hp, rfl⟩
  exact List.mem_map.2 ⟨p, List.mem_of_mem_filter hp, rfl⟩

theorem round_robin_select_mem (lb : LLMLoadBalancer) (av : List String) (b : String)
    (h : (round_robin_select lb av).1 = some b) : b ∈ av := by
  cases av with
  | nil => simp [round_robin_select] at h
  | cons a rest =>
    simp [round_robin_select] at h
    exact h ▸ List.get_mem _ _ _

theorem weighted_round_robin_select_mem (lb : LLMLoadBalancer) (av : List String)
    (b : String) (h : (weighted_round_robin_select lb av).1 = some b) : b ∈ av := by
  cases av with
  | nil => simp [weighted_round_robin_select] at h
  | cons a rest =>
    simp only [weighted_round_robin_select] at h
    split at h
    · simp at h
      exact h ▸ List.mem_cons_self _ _
    · simp at h
      rename_i w ws hW
      have hb : b ∈ w :: ws := h ▸ List.get_mem _ _ _
      rw [← hW] at hb
      rcases List.mem_flatten.1 hb with ⟨s, hs, hbs⟩
      rcases List.mem_map.1 hs with ⟨n, hn, rfl⟩
      exact (List.eq_of_mem_replicate hbs) ▸ hn

theorem least_connections_select_mem (lb : LLMLoadBalancer) (av : List String)
    (b : String) (h : least_connections_select lb av = some b) : b ∈ av := by
  cases av with
  | nil => simp [least_connections_select] at h
  | cons a rest =>
    simp only [least_connections_select, Option.some.injEq] at h
    have hg : ∀ (acc : String × Option Nat) (n : String),
        ((fun (acc : String × Option Nat) n =>
          let c := lb.connectionsOf n
          match acc.2 with
          | none => (n, some c)
          | some m => if c < m then (n, some c) else acc) acc n).1 = n ∨
        ((fun (acc : String × Option Nat) n =>
          let c := lb.connectionsOf n
          match acc.2 with
          | none => (n, some c)
          | some m => if c < m then (n, some c) else acc) acc n).1 = acc.1 := by
      intro acc n
      rcases acc with ⟨s, o⟩
      cases o with
      | none => left; rfl
      | some m =>
        by_cases hc : lb.connectionsOf n < m
        · left; simp [hc]
        · right; simp [hc]
    rcases foldl_fst_mem _ hg (a :: rest) (a, none) with h2 | h2
    · rw [h] at h2; rw [h2]; exact List.mem_cons_self _ _
    · rw [h] at h2; exact h2

theorem random_select_mem (av : List String) (rand : Nat) (b : String)
    (h : random_select av rand = some b) : b ∈ av := by
  cases av with
  | nil => simp [random_select] at h
  | cons a rest =>
    simp [random_select] at h
    exact h ▸ List.get_mem _ _ _

theorem healthyB_mem (lb : LLMLoadBalancer) (b : String)
    (h : lb.healthyB b = true) : b ∈ lb.metrics.map Prod.fst := by
  unfold LLMLoadBalancer.healthyB at h
  split at h
  · rename_i m hm
    exact lookupA_isSome_mem _ _ _ hm
  · simp at h

theorem consistent_hash_select_healthy (lb : LLMLoadBalancer) (hv : Nat)
    (b : String) (h : consistent_hash_select lb hv = some b) :
    lb.healthyB b = true := by
  unfold consistent_hash_select at h
  split at h
  · simp at h
  · rename_i first rest hsort
    split at h
    · rename_i p hfind
      have hp := List.find?_some hfind
      simp at hp h
      exact h ▸ hp.2
    · split at h
      · rename_i hfirst
        simp at h
        exact h ▸ hfirst
      · simp at h

theorem response_time_select_mem (lb : LLMLoadBalancer) (av : List String)
    (b : String) (h : response_time_select lb av = some b) : b ∈ av := by
  cases av with
  | nil => simp [response_time_select] at h
  | cons a rest =>
    simp only [response_time_select, Option.some.injEq] at h
    have hg : ∀ (acc : String × Option Rat) (n : String),
        ((fun (acc : String × Option Rat) n =>
          let t := lb.avgTimeOf n
          match acc.2 with
          | none => if 0 < t then (n, some t) else acc
          | some m => if 0 < t ∧ t < m then (n, some t) else acc) acc n).1 = n ∨
        ((fun (acc : String × Option Rat) n =>
          let t := lb.avgTimeOf n
          match acc.2 with
          | none => if 0 < t then (n, some t) else acc
          | some m => if 0 < t ∧ t < m then (n, some t) else acc) acc n).1 = acc.1 := by
      intro acc n
      rcases acc with ⟨s, o⟩
      cases o with
      | none =>
        by_cases hc : (0 : Rat) < lb.avgTimeOf n
        · left; simp [hc]
        · right; simp [hc]
      | some m =>
        by_cases hc : (0 : Rat) < lb.avgTimeOf n ∧ lb.avgTimeOf n < m
        · left; simp [hc]
        · right; simp [hc]
    rcases foldl_fst_mem _ hg (a :: rest) (a, none) with h2 | h2
    · rw [h] at h2; rw [h2]; exact List.mem_cons_self _ _
    · rw [h] at h2; exact h2

theorem strategy_pick_mem (md5 : String → Nat) (rand : Nat) (lb : LLMLoadBalancer)
    (rh : Option String) (av : List String) (b : String)
    (hsub : ∀ x ∈ av, x ∈ lb.metrics.map Prod.fst)
    (h : (strategy_pick md5 rand lb rh av).1 = some b) :
    b ∈ lb.metrics.map Prod.fst := by
  unfold strategy_pick at h
  split at h
  · exact hsub _ (round_robin_select_mem _ _ _ h)
  · exact hsub _ (weighted_round_robin_select_mem _ _ _ h)
  · exact hsub _ (least_connections_select_mem _ _ _ h)
  · exact hsub _ (random_select_mem _ _ _ h)
  · exact healthyB_mem _ _ (consistent_hash_select_healthy _ _ _ h)
  · exact hsub _ (response_time_select_mem _ _ _ h)

theorem select_backend_mem (md5 : String → Nat) (rand : Nat) (lb : LLMLoadBalancer)
    (rh : Option String) (b : String)
    (h : (lb.select_backend md5 rand rh).1 = some b) :
    b ∈ lb.metrics.map Prod.fst := by
  unfold LLMLoadBalancer.select_backend at h
  simp only [] at h
  split at h
  · simp at h
  · rcases hp : (strategy_pick md5 rand lb rh lb.available_backends).1 with _ | b'
    · rw [hp] at h; simp at h
    · rw [hp] at h
      simp at h
      subst h
      exact strategy_pick_mem _ _ _ _ _ _ (fun x hx => available_sub lb x hx) hp

theorem select_backend_metrics_fst (md5 : String → Nat) (rand : Nat)
    (lb : LLMLoadBalancer) (rh : Option String) :
    ((lb.select_backend md5 rand rh).2).metrics.map Prod.fst = lb.metrics.map Prod.fst := by
  unfold LLMLoadBalancer.select_backend
  simp only []
  split
  · rfl
  · rcases hp : (strategy_pick md5 rand lb rh lb.available_backends).1 with _ | b'
    · rfl
    · simp [updateA_map_fst]

theorem select_backend_backends_eq (md5 : String → Nat) (rand : Nat)
    (lb : LLMLoadBalancer) (rh : Option String) :
    ((lb.select_backend md5 rand rh).2).backends = lb.backends := by
  unfold LLMLoadBalancer.select_backend
  simp only []
  split
  · rfl
  · rcases hp : (strategy_pick md5 rand lb rh lb.available_backends).1 with _ | b'
    · rfl
    · rfl

theorem record_request_result_metrics_fst (lb : LLMLoadBalancer) (n : String)
    (s : Bool) (t : Rat) (e : Option String) :
    (lb.record_request_result n s t e).metrics.map Prod.fst = lb.metrics.map Prod.fst := by
  unfold LLMLoadBalancer.record_request_result
  split
  · rfl
  · simp [updateA_map_fst]

theorem record_request_result_backends_eq (lb : LLMLoadBalancer) (n : String)
    (s : Bool) (t : Rat) (e : Option String) :
    (lb.record_request_result n s t e).backends = lb.backends := by
  unfold LLMLoadBalancer.record_request_result
  split
  · rfl
  · rfl

theorem release_connection_metrics_fst (lb : LLMLoadBalancer) (n : String) :
    (lb.release_connection n).metrics.map Prod.fst = lb.metrics.map Prod.fst := by
  unfold LLMLoadBalancer.release_connection
  split
  · rfl
  · split
    · simp [updateA_map_fst]
    · rfl

theorem release_connection_backends_eq (lb : LLMLoadBalancer) (n : String) :
    (lb.release_connection n).backends = lb.backends := by
  unfold LLMLoadBalancer.release_connection
  split
  · rfl
  · split
    · rfl
    · rfl


/-! ## Select/release parity of the dispatcher loop -/

theorem process_audio_loop_parity (md5 : String → Nat) (rands : Nat → Nat)
    (attemptResult : Nat → Option Rat) (attemptError : Nat → String)
    (clients : List String) (rh : Option String) :
    ∀ (remaining attempt : Nat) (lb : LLMLoadBalancer),
      (∀ n ∈ lb.metrics.map Prod.fst, clients.contains n = true) →
      (∀ n ∈ lb.metrics.map Prod.fst, (lookupA lb.backends n).isSome = true) →
      ∀ b,
        countEvent (process_audio_loop md5 rands attemptResult attemptError
          clients rh remaining attempt lb).2.2 (LBEvent.select b) =
        countEvent (process_audio_loop md5 rands attemptResult attemptError
          clients rh remaining attempt lb).2.2 (LBEvent.release b) := by
  intro remaining
  induction remaining with
  | zero => intro attempt lb hc hb b; rfl
  | succ r ih =>
    intro attempt lb hc hb b
    unfold process_audio_loop
    simp only []
    rcases hsel : (lb.select_backend md5 (rands attempt) rh).1 with _ | bn
    · rfl
    · have hmem := select_backend_mem md5 (rands attempt) lb rh bn hsel
      have hcb := hc bn hmem
      have hbb : (lookupA ((lb.select_backend md5 (rands attempt) rh).2).backends bn).isSome = true := by
        rw [select_backend_backends_eq]
        exact hb bn hmem
      simp only [hcb, hbb, Bool.and_self, if_true]
      rcases hres : attemptResult attempt with _ | d
      · by_cases hr : r = 0
        · subst hr
          simp only [if_pos rfl]
          by_cases hbn : bn = b <;> simp [countEvent_cons, countEvent_nil, hbn]
        · simp only [if_neg hr]
          have hc3 : ∀ n ∈ (((lb.select_backend md5 (rands attempt) rh).2.record_request_result
              bn false 0 (some (attemptError attempt))).release_connection bn).metrics.map Prod.fst,
              clients.contains n = true := by
            intro n hn
            rw [release_connection_metrics_fst, record_request_result_metrics_fst,
              select_backend_metrics_fst] at hn
            exact hc n hn
          have hb3 : ∀ n ∈ (((lb.select_backend md5 (rands attempt) rh).2.record_request_result
              bn false 0 (some (attemptError attempt))).release_connection bn).metrics.map Prod.fst,
              (lookupA (((lb.select_backend md5 (rands attempt) rh).2.record_request_result
                bn false 0 (some (attemptError attempt))).release_connection bn).backends n).isSome = true := by
            intro n hn
            rw [release_connection_metrics_fst, record_request_result_metrics_fst,
              select_backend_metrics_fst] at hn
            rw [release_connection_backends_eq, record_request_result_backends_eq,
              select_backend_backends_eq]
            exact hb n hn
          have ih3 := ih (attempt + 1)
            (((lb.select_backend md5 (rands attempt) rh).2.record_request_result
              bn false 0 (some (attemptError attempt))).release_connection bn) hc3 hb3 b
          by_cases hbn : bn = b
          · subst hbn
            simp [countEvent_cons, ih3]
          · simp [countEvent_cons, hbn, ih3]
      · by_cases hbn : bn = b <;> simp [countEvent_cons, countEvent_nil, hbn]


/-! ## Auth-path lemma shared by the cache claims -/

/-- A store-backed verification that reports invalid leaves the cache
unchanged: every rejecting branch of _verify_api_key_from_db returns the
input cache. -/
theorem verify_from_db_invalid_cache_eq (f : DbFaults) (db : Database)
    (c : RedisCache) (now : Nat) (k : String)
    (h : ((AuthService.verify_api_key_from_db f db c now k).1).1 = false) :
    (AuthService.verify_api_key_from_db f db c now k).2.2 = c := by
  by_cases hq : f.queryFails
  · simp [AuthService.verify_api_key_from_db, hq]
  · rcases hfind : findRecord db k with _ | r
    · simp [AuthService.verify_api_key_from_db, hq, hfind]
    · by_cases hv : r.is_valid now
      · by_cases hcf : f.commitFails
        · simp [AuthService.verify_api_key_from_db, hq, hfind, hv, hcf]
        · simp [AuthService.verify_api_key_from_db, hq, hfind, hv, hcf] at h
      · simp [AuthService.verify_api_key_from_db, hq, hfind, hv]

/-! ## Parser loop invariant -/

/-- One parser line step preserves the invariant as long as the line
does not open a section literally named raw_text. -/
theorem parseLine_inv (content line : String) (st : ParseState)
    (hl : lineKey line ≠ some "raw_text") (h : ParserInv content st) :
    ParserInv content (parseLine st line) := by
  obtain ⟨hdict, hcur⟩ := h
  by_cases hstr : pyStrip line = ""
  · rcases hc : st.current with _ | ck
    · have hsame : parseLine st line = st := by simp [parseLine, hstr, hc]
      rw [hsame]
      exact ⟨hdict, hcur⟩
    · refine ⟨?_, ?_⟩ <;> simp [parseLine, hstr, hc]
      · exact hdict
      · exact hcur ck hc
  · rcases hsp : splitFirstColon (pyStrip line) with _ | ⟨l, r⟩
    · rcases hc : st.current with _ | ck
      · have hsame : parseLine st line = st := by simp [parseLine, hstr, hsp, hc]
        rw [hsame]
        exact ⟨hdict, hcur⟩
      · refine ⟨?_, ?_⟩ <;> simp [parseLine, hstr, hsp, hc]
        · exact hdict
        · exact hcur ck hc
    · by_cases hkey : pyStrip l = ""
      · rcases hc : st.current with _ | ck
        · have hsame : parseLine st line = st := by simp [parseLine, hstr, hsp, hkey, hc]
          rw [hsame]
          exact ⟨hdict, hcur⟩
        · refine ⟨?_, ?_⟩ <;> simp [parseLine, hstr, hsp, hkey, hc]
          · exact hdict
          · exact hcur ck hc
      · have hkraw : pyStrip l ≠ "raw_text" := by
          intro hk
          apply hl
          simp [lineKey, hstr, hsp, hkey, hk]
        rcases hc : st.current with _ | ck
        · refine ⟨?_, ?_⟩ <;> simp [parseLine, hstr, hsp, hkey, hc]
          · exact hdict
          · exact hkraw
        · refine ⟨?_, ?_⟩ <;> simp [parseLine, hstr, hsp, hkey, hc]
          · exact (lookupA_setA_ne _ _ _ _ (Ne.symm (hcur ck hc))).trans hdict
          · exact hkraw

/-- The whole line loop preserves the parser invariant. -/
theorem foldl_parseLine_inv (content : String) :
    ∀ (lines : List String) (st : ParseState),
      (∀ l ∈ lines, lineKey l ≠ some "raw_text") →
      ParserInv content st → ParserInv content (lines.foldl parseLine st) := by
  intro lines
  induction lines with
  | nil => intro st _ h; exact h
  | cons x rest ih =>
    intro st hall h
    exact ih (parseLine st x) (fun l hl => hall l (List.mem_cons_of_mem _ hl))
      (parseLine_inv content x st (hall x (List.mem_cons_self _ _)) h)

/-! ## Claims -/

/-- C1 counterexample: two distinct secrets sharing their first 16
characters; after a store-backed positive verification of the first has
populated the cache, verifying the second returns (true, _) even though
the second secret has no record at all in the authoritative store — the
cached value alone did authenticate it, refuting the claim. -/
theorem c1_collision_counterexample :
    kOne ≠ kTwo ∧
    pySlice kOne 16 = pySlice kTwo 16 ∧
    stepC1.1 = (true, false) ∧
    (AuthService.verify_api_key true noFaults stepC1.2.1 stepC1.2.2 11 kTwo).1 = (true, false) ∧
    findRecord stepC1.2.1 kTwo = none := by
  decide

/-- C1 (amended): while a positive entry lives under the cache key
derived from a secret's first 16 characters, the cached value alone is
sufficient to authenticate — verify returns (true, cached_admin) for any
secret mapping to that key, without validating it against the
authoritative store; a collided secret is only validated once the entry
expires at the TTL boundary. -/
theorem c1_cached_positive_suffices :
    ∀ (f : DbFaults) (db : Database) (c : RedisCache) (now : Nat) (k : String) (a : Bool),
      c.get_api_key_auth k = some (true, a) →
      (AuthService.verify_api_key true f db c now k).1 = (true, a) := by
  intro f db c now k a h
  simp [AuthService.verify_api_key, h]

/-- Witness for the amended C1 at a concrete cache holding a positive
entry, with an empty store. -/
theorem c1_cached_positive_suffices_witness :
    cacheC2.get_api_key_auth "lls_adminkey42" = some (true, false) ∧
    (AuthService.verify_api_key true noFaults [] cacheC2 7 "lls_adminkey42").1 = (true, false) := by
  refine ⟨by decide, ?_⟩
  exact c1_cached_positive_suffices noFaults [] cacheC2 7 "lls_adminkey42" false (by decide)

/-- C2 counterexample: set_admin_status succeeds (returns true) on a
stored secret whose cache entry exists, yet the cache after the call is
identical to the cache before it — the entry was not deleted, refuting
the claim for set_admin. -/
theorem c2_set_admin_keeps_cache_counterexample :
    (AuthService.set_admin_status noFaults dbC2 cacheC2 "lls_adminkey42" true).1 = true ∧
    (AuthService.set_admin_status noFaults dbC2 cacheC2 "lls_adminkey42" true).2.2 = cacheC2 ∧
    cacheC2.get_api_key_auth "lls_adminkey42" = some (true, false) := by
  decide

/-- C2 (amended): a successful revoke(secret) synchronously invalidates
the cache entry for that secret before returning true (afterwards the
cache lookup for the secret yields nothing), but set_admin(secret, b)
returns with the cache exactly as it was — the stale cached admin flag
persists until the TTL expires. -/
theorem c2_revoke_invalidates_cache :
    (∀ (f : DbFaults) (db : Database) (c : RedisCache) (k : String),
        (AuthService.revoke_api_key f db c k).1 = true →
        ((AuthService.revoke_api_key f db c k).2.2).get_api_key_auth k = none) ∧
    (∀ (f : DbFaults) (db : Database) (c : RedisCache) (k : String) (b : Bool),
        (AuthService.set_admin_status f db c k b).2.2 = c) := by
  constructor
  · intro f db c k h
    by_cases hq : f.queryFails
    · simp [AuthService.revoke_api_key, hq] at h
    · rcases hfind : findRecord db k with _ | r
      · simp [AuthService.revoke_api_key, hq, hfind] at h
      · by_cases hcf : f.commitFails
        · simp [AuthService.revoke_api_key, hq, hfind, hcf] at h
        · simp only [AuthService.revoke_api_key, hq, hfind, hcf]
          unfold RedisCache.invalidate_api_key RedisCache.get_api_key_auth
          by_cases hen : c.enabled
          · simp [hen, lookupA_eraseA_self]
          · simp [hen]
  · intro f db c k b
    by_cases hq : f.queryFails
    · simp [AuthService.set_admin_status, hq]
    · rcases hfind : findRecord db k with _ | r
      · simp [AuthService.set_admin_status, hq, hfind]
      · by_cases hcf : f.commitFails
        · simp [AuthService.set_admin_status, hq, hfind, hcf]
        · simp [AuthService.set_admin_status, hq, hfind, hcf]

/-- Witness for the amended C2 at a concrete store, secret and cache. -/
theorem c2_revoke_invalidates_cache_witness :
    ((AuthService.revoke_api_key noFaults dbC2 cacheC2 "lls_adminkey42").2.2).get_api_key_auth
      "lls_adminkey42" = none ∧
    (AuthService.set_admin_status noFaults dbC2 cacheC2 "lls_adminkey42" true).2.2 = cacheC2 := by
  constructor
  · exact c2_revoke_invalidates_cache.1 noFaults dbC2 cacheC2 "lls_adminkey42" (by decide)
  · exact c2_revoke_invalidates_cache.2 noFaults dbC2 cacheC2 "lls_adminkey42" true

/-- C3 counterexample: a successful probe moves a Disabled backend to
Healthy, a failing probe at the threshold moves a Disabled backend to
Unhealthy, and enable() leaves consecutive_failures untouched (still 2)
— all three contradicting the claim. -/
theorem c3_disabled_not_absorbing_counterexample :
    (checkBackendHealth 3 5 (ProbeOutcome.ok 1) { status := .DISABLED }).status = .HEALTHY ∧
    (checkBackendHealth 3 5 (ProbeOutcome.err "boom")
      { status := .DISABLED, consecutive_failures := 2 }).status = .UNHEALTHY ∧
    (lookupA (lbC3.enable_backend "A").metrics "A").map (fun m => m.consecutive_failures)
      = some 2 := by
  decide

/-- C3 (amended): a successful probe sets any backend — Disabled
included — to Healthy and resets consecutive_failures to 0; a failing
probe whose incremented failure count reaches the threshold sets any
backend — Disabled included — to Unhealthy, and below the threshold
leaves the status unchanged; enable() sets the status to Healthy but
does not reset the failure counter. -/
theorem c3_probe_and_enable_transitions :
    (∀ (thr : Nat) (now t : Rat) (m : BackendMetrics),
        (checkBackendHealth thr now (ProbeOutcome.ok t) m).status = .HEALTHY ∧
        (checkBackendHealth thr now (ProbeOutcome.ok t) m).consecutive_failures = 0) ∧
    (∀ (thr : Nat) (now : Rat) (e : String) (m : BackendMetrics),
        thr ≤ m.consecutive_failures + 1 →
        (checkBackendHealth thr now (ProbeOutcome.err e) m).status = .UNHEALTHY) ∧
    (∀ (thr : Nat) (now : Rat) (e : String) (m : BackendMetrics),
        m.consecutive_failures + 1 < thr →
        (checkBackendHealth thr now (ProbeOutcome.err e) m).status = m.status) ∧
    (∀ (lb : LLMLoadBalancer) (n : String) (m : BackendMetrics),
        lookupA lb.metrics n = some m →
        lookupA (lb.enable_backend n).metrics n = some { m with status := .HEALTHY }) := by
  refine ⟨?_, ?_, ?_, ?_⟩
  · intro thr now t m
    constructor <;> simp [checkBackendHealth, BackendMetrics.update_response_time]
  · intro thr now e m h
    simp [checkBackendHealth, h]
  · intro thr now e m h
    have hlt : ¬ (thr ≤ m.consecutive_failures + 1) := by omega
    simp [checkBackendHealth, hlt]
  · intro lb n m hm
    unfold LLMLoadBalancer.enable_backend
    simp only [hm]
    rw [lookupA_updateA, hm]
    rfl

/-- Witness for the amended C3 on concrete metrics at threshold 3. -/
theorem c3_probe_and_enable_transitions_witness :
    (checkBackendHealth 3 5 (ProbeOutcome.ok 1)
      ({ status := .DISABLED } : BackendMetrics)).status = .HEALTHY ∧
    (checkBackendHealth 3 5 (ProbeOutcome.err "boom")
      ({ status := .DISABLED, consecutive_failures := 2 } : BackendMetrics)).status = .UNHEALTHY ∧
    (checkBackendHealth 3 5 (ProbeOutcome.err "boom")
      ({ status := .HEALTHY } : BackendMetrics)).status = .HEALTHY ∧
    lookupA (lbC3.enable_backend "A").metrics "A"
      = some { status := .HEALTHY, consecutive_failures := 2 } := by
  refine ⟨(c3_probe_and_enable_transitions.1 3 5 1 _).1, ?_, ?_, ?_⟩
  · exact c3_probe_and_enable_transitions.2.1 3 5 "boom" _ (by decide)
  · have := c3_probe_and_enable_transitions.2.2.1 3 5 "boom"
      ({ status := .HEALTHY } : BackendMetrics) (by decide)
    simpa using this
  · have := c3_probe_and_enable_transitions.2.2.2 lbC3 "A"
      ({ status := .DISABLED, consecutive_failures := 2 } : BackendMetrics) (by decide)
    simpa using this

/-- C4 counterexample: a Healthy round-robin backend whose
active_connections already equals its max_connections of 50 is still
selected, and its connection count rises to 51 — selection neither
treats it as unavailable nor fails with NoBackend, refuting the claim. -/
theorem c4_capacity_counterexample :
    (lookupA lbC4.backends "A").map (fun c => c.max_connections) = some 50 ∧
    (lookupA lbC4.metrics "A").map (fun m => m.active_connections) = some 50 ∧
    (lbC4.select_backend md5zero 0 none).1 = some "A" ∧
    (lookupA (lbC4.select_backend md5zero 0 none).2.metrics "A").map
      (fun m => m.active_connections) = some 51 := by
  decide

/-- C4 (amended): backend selection never consults max_connections —
under round_robin it returns no backend exactly when no backend is
Healthy, and any backend it returns is Healthy, irrespective of how its
active_connections compares to max_connections (in particular a backend
at capacity is still picked, as the counterexample shows). -/
theorem c4_selection_ignores_capacity :
    ∀ (lb : LLMLoadBalancer) (md5 : String → Nat) (rand : Nat) (rh : Option String),
      lb.strategy = .ROUND_ROBIN →
      (((lb.select_backend md5 rand rh).1 = none) ↔ lb.available_backends = []) ∧
      (∀ b, (lb.select_backend md5 rand rh).1 = some b → b ∈ lb.available_backends) := by
  intro lb md5 rand rh hs
  constructor
  · cases hav : lb.available_backends with
    | nil => simp [LLMLoadBalancer.select_backend, hav]
    | cons a rest =>
      simp [LLMLoadBalancer.select_backend, hav, strategy_pick, hs, round_robin_select]
  · intro b h
    unfold LLMLoadBalancer.select_backend at h
    simp only [] at h
    split at h
    · simp at h
    · rcases hp : (strategy_pick md5 rand lb rh lb.available_backends).1 with _ | b'
      · rw [hp] at h
        simp at h
      · rw [hp] at h
        simp at h
        subst h
        unfold strategy_pick at hp
        rw [hs] at hp
        exact round_robin_select_mem _ _ _ hp

/-- Witness for the amended C4 at the concrete at-capacity balancer. -/
theorem c4_selection_ignores_capacity_witness :
    (((lbC4.select_backend md5zero 0 none).1 = none) ↔ lbC4.available_backends = []) ∧
    ("A" ∈ lbC4.available_backends) := by
  refine ⟨(c4_selection_ignores_capacity lbC4 md5zero 0 none rfl).1, ?_⟩
  exact (c4_selection_ignores_capacity lbC4 md5zero 0 none rfl).2 "A" (by decide)

/-- C5: in every terminated run of the dispatcher's retry loop over a
balancer whose metrics names all have a client and a configuration (the
service keeps _clients and the balancer in sync), each select_backend
pick is matched by exactly one release_connection on both the success
and the failure attempt paths, so for every backend the number of
select events equals the number of release events in the run's trace. -/
theorem c5_select_release_parity :
    ∀ (md5 : String → Nat) (rands : Nat → Nat) (attemptResult : Nat → Option Rat)
      (attemptError : Nat → String) (clients : List String) (rh : Option String)
      (lb : LLMLoadBalancer),
      (∀ n ∈ lb.metrics.map Prod.fst, clients.contains n = true) →
      (∀ n ∈ lb.metrics.map Prod.fst, (lookupA lb.backends n).isSome = true) →
      ∀ b,
        countEvent (process_audio md5 rands attemptResult attemptError
          clients rh lb).2.2 (LBEvent.select b) =
        countEvent (process_audio md5 rands attemptResult attemptError
          clients rh lb).2.2 (LBEvent.release b) := by
  intro md5 rands attemptResult attemptError clients rh lb hc hb b
  unfold process_audio
  exact process_audio_loop_parity md5 rands attemptResult attemptError clients rh
    (lb.max_retries + 1) 0 lb hc hb b

/-- Witness for C5: a run whose first attempt raises and whose second
succeeds, on a one-backend balancer. -/
theorem c5_select_release_parity_witness :
    countEvent (process_audio md5zero (fun _ => 0)
      (fun i => if i = 0 then none else some 1) (fun _ => "e") ["A"] none lbC5).2.2
      (LBEvent.select "A") =
    countEvent (process_audio md5zero (fun _ => 0)
      (fun i => if i = 0 then none else some 1) (fun _ => "e") ["A"] none lbC5).2.2
      (LBEvent.release "A") := by
  exact c5_select_release_parity md5zero (fun _ => 0)
    (fun i => if i = 0 then none else some 1) (fun _ => "e") ["A"] none lbC5
    (by decide) (by decide) "A"

/-- C6 counterexample: a consistent-hash ring where every virtual node
at or after the request's hash point is exhausted and the minimal node
belongs to the Unhealthy backend A; backend B is Healthy (it is the
whole healthy subset), yet selection returns no backend — the walk does
not continue past the minimal node after wrapping, refuting the claim. -/
theorem c6_wraparound_counterexample :
    lbC6.available_backends = ["B"] ∧
    (lbC6.select_backend md5C6 0 (some "k")).1 = none := by
  decide

/-- C6 (amended): the clockwise walk inspects the virtual nodes at or
after the hash point in key order, but on reaching the end of the ring
it consults only the single minimal node: when every node at or after
the hash point is unhealthy and the minimal node's backend is not
Healthy, selection returns no backend, even when another Healthy
backend exists on the ring. -/
theorem c6_wrap_consults_only_min_node :
    ∀ (lb : LLMLoadBalancer) (hv : Nat),
      lb.hash_ring ≠ [] →
      (∀ p ∈ lb.hash_ring, hv ≤ p.1 → lb.healthyB p.2 = false) →
      ((ringMin lb.hash_ring).map (fun p => lb.healthyB p.2)).getD false = false →
      consistent_hash_select lb hv = none := by
  intro lb hv hne h1 h2
  unfold consistent_hash_select
  split
  · rfl
  · rename_i first rest hsort
    have hfind : (first :: rest).find?
        (fun p => decide (hv ≤ p.1) && lb.healthyB p.2) = none := by
      apply List.find?_eq_none.2
      intro x hx
      have hxr : x ∈ lb.hash_ring := by
        refine (mem_sortByKey x lb.hash_ring).1 ?_
        rw [hsort]
        exact hx
      by_cases hle : hv ≤ x.1
      · simp [h1 x hxr hle, hle]
      · simp [hle]
    rw [hfind]
    have hmin : ringMin lb.hash_ring = some first := by
      unfold ringMin
      rw [hsort]
      rfl
    rw [hmin] at h2
    simp at h2
    simp [h2]

/-- Witness for the amended C6 at the concrete two-backend ring with
hash point 300, where the Healthy backend B exists but is unreachable
from the wrap. -/
theorem c6_wrap_consults_only_min_node_witness :
    lbC6.hash_ring ≠ [] ∧
    lbC6.healthyB "B" = true ∧
    consistent_hash_select lbC6 300 = none := by
  refine ⟨by decide, by decide, ?_⟩
  exact c6_wrap_consults_only_min_node lbC6 300 (by decide) (by decide) (by decide)

/-- C7: no verification that reports invalid ever writes a cache entry —
the cache write path ignores values with valid=false, and every
verification returning (false, _) leaves the cache exactly as it was,
so no new entry exists for the secret and its next verification falls
through to the authoritative store. -/
theorem c7_negative_results_never_cached :
    (∀ (c : RedisCache) (k : String) (a : Bool) (now : Nat),
        c.set_api_key_auth k false a now = c) ∧
    (∀ (e : Bool) (f : DbFaults) (db : Database) (c : RedisCache) (now : Nat) (k : String),
        ((AuthService.verify_api_key e f db c now k).1).1 = false →
        (AuthService.verify_api_key e f db c now k).2.2 = c) := by
  constructor
  · intro c k a now
    simp [RedisCache.set_api_key_auth]
  · intro e f db c now k h
    cases e with
    | false => simp [AuthService.verify_api_key] at h
    | true =>
      rcases hg : c.get_api_key_auth k with _ | p
      · simp only [AuthService.verify_api_key, hg] at h ⊢
        exact verify_from_db_invalid_cache_eq _ _ _ _ _ (by simpa using h)
      · rcases p with ⟨b, a⟩
        cases b with
        | false =>
          simp only [AuthService.verify_api_key, hg] at h ⊢
          exact verify_from_db_invalid_cache_eq _ _ _ _ _ (by simpa using h)
        | true => simp [AuthService.verify_api_key, hg] at h

/-- Witness for C7: a negative write is the identity, and a failed
verification of an unknown secret leaves the empty cache empty. -/
theorem c7_negative_results_never_cached_witness :
    RedisCache.set_api_key_auth ({}) "lls_wit" false false 3 = ({} : RedisCache) ∧
    ((AuthService.verify_api_key true noFaults [] ({}) 3 "lls_wit").1).1 = false ∧
    (AuthService.verify_api_key true noFaults [] ({}) 3 "lls_wit").2.2 = ({} : RedisCache) := by
  refine ⟨c7_negative_results_never_cached.1 ({}) "lls_wit" false 3, by decide, ?_⟩
  exact c7_negative_results_never_cached.2 true noFaults [] ({}) 3 "lls_wit" (by decide)

/-- C8 counterexample: an active record whose expiry equals the current
instant 100 is still valid under the code (is_valid = true since
expiry is only strict-past), and its store-backed verification returns
(true, admin), not (false, admin) as the claim states. -/
theorem c8_expiry_boundary_counterexample :
    (findRecord dbC8 "lls_boundary").map (fun r => r.is_active) = some true ∧
    (findRecord dbC8 "lls_boundary").map (fun r => r.expires_at) = some (some 100) ∧
    (findRecord dbC8 "lls_boundary").map (fun r => r.is_valid 100) = some true ∧
    (AuthService.verify_api_key_from_db noFaults dbC8 ({}) 100 "lls_boundary").1 = (true, true) := by
  decide

/-- C8 (amended): a record is valid iff its active flag is set and its
expiry is absent or at-or-after the current time (expiry ≥ now, not the
claimed strict >); in particular a fault-free verification of an active
record whose expiry equals the current instant returns
(true, record_admin). -/
theorem c8_validity_boundary :
    (∀ (r : APIKey) (now : Nat),
        r.is_valid now = true ↔
          (r.is_active = true ∧
            (r.expires_at = none ∨ ∃ t, r.expires_at = some t ∧ now ≤ t))) ∧
    (∀ (f : DbFaults) (db : Database) (c : RedisCache) (now : Nat) (k : String) (r : APIKey),
        f.queryFails = false → f.commitFails = false →
        findRecord db k = some r → r.is_active = true → r.expires_at = some now →
        (AuthService.verify_api_key_from_db f db c now k).1 = (true, r.is_admin)) := by
  constructor
  · intro r now
    rcases hexp : r.expires_at with _ | t
    · simp [APIKey.is_valid, APIKey.is_expired, hexp]
    · simp [APIKey.is_valid, APIKey.is_expired, hexp, Nat.not_lt]
  · intro f db c now k r hq hcf hfind hact hexp
    have hv : r.is_valid now = true := by
      simp [APIKey.is_valid, APIKey.is_expired, hexp, hact]
    simp [AuthService.verify_api_key_from_db, hq, hfind, hv, hcf]

/-- Witness for the amended C8 at the concrete boundary record. -/
theorem c8_validity_boundary_witness :
    (({ api_key := "lls_boundary", name := "n", expires_at := some 100,
        is_admin := true } : APIKey).is_valid 100 = true) ∧
    (AuthService.verify_api_key_from_db noFaults dbC8 ({}) 100 "lls_boundary").1 = (true, true) := by
  constructor
  · exact (c8_validity_boundary.1 _ 100).2 (by decide)
  · have := c8_validity_boundary.2 noFaults dbC8 ({}) 100 "lls_boundary"
      { api_key := "lls_boundary", name := "n", expires_at := some 100, is_admin := true }
      rfl rfl (by decide) (by decide) (by decide)
    simpa using this

/-- C9 counterexample: for the reply consisting of the single line
raw_text: hi, the parser's section loop overwrites the preserved raw
reply — the result maps raw_text to the section value hi, which is not
the reply verbatim, refuting the claim. -/
theorem c9_raw_text_overwritten_counterexample :
    lookupA (parse_model_response "raw_text: hi") "raw_text" = some "hi" ∧
    "hi" ≠ "raw_text: hi" := by
  decide

/-- C9 (amended): the parser's result maps raw_text to the raw reply
verbatim provided no line of the stripped reply opens a section whose
header is literally raw_text; such a section's value would replace the
preserved reply (as the counterexample shows). -/
theorem c9_raw_text_preserved :
    ∀ content : String,
      (∀ line ∈ splitOnNewline (pyStrip content), lineKey line ≠ some "raw_text") →
      lookupA (parse_model_response content) "raw_text" = some content := by
  intro content hall
  unfold parse_model_response
  simp only []
  have hinv := foldl_parseLine_inv content (splitOnNewline (pyStrip content))
    { dict := [("raw_text", content)], current := none, lines := [] } hall
    ⟨by simp [lookupA], by intro ck h; simp at h⟩
  obtain ⟨hdict, hcur⟩ := hinv
  rcases hc : ((splitOnNewline (pyStrip content)).foldl parseLine
      { dict := [("raw_text", content)], current := none, lines := [] }).current with _ | ck
  · exact hdict
  · exact (lookupA_setA_ne _ _ _ _ (Ne.symm (hcur ck hc))).trans hdict

/-- Witness for the amended C9 on a two-line reply with a CJK section
header and a continuation line. -/
theorem c9_raw_text_preserved_witness :
    (∀ line ∈ splitOnNewline (pyStrip "原文：hello\n世界"),
      lineKey line ≠ some "raw_text") ∧
    lookupA (parse_model_response "原文：hello\n世界") "raw_text"
      = some "原文：hello\n世界" := by
  refine ⟨by decide, ?_⟩
  exact c9_raw_text_preserved "原文：hello\n世界" (by decide)

/-- C10: if the session raises during the store-backed verification —
at the record lookup, or at the usage-counter update / commit even for
a valid record — verify returns (false, false) and the store and cache
are exactly as before (the rollback), rather than propagating the
exception: the path is fail-closed. -/
theorem c10_store_exceptions_fail_closed :
    (∀ (db : Database) (c : RedisCache) (now : Nat) (k : String) (f : DbFaults),
        f.queryFails = true →
        AuthService.verify_api_key_from_db f db c now k = ((false, false), db, c)) ∧
    (∀ (db : Database) (c : RedisCache) (now : Nat) (k : String) (f : DbFaults) (r : APIKey),
        f.commitFails = true → findRecord db k = some r → r.is_valid now = true →
        AuthService.verify_api_key_from_db f db c now k = ((false, false), db, c)) := by
  constructor
  · intro db c now k f hq
    simp [AuthService.verify_api_key_from_db, hq]
  · intro db c now k f r hcf hfind hv
    by_cases hq : f.queryFails
    · simp [AuthService.verify_api_key_from_db, hq]
    · simp [AuthService.verify_api_key_from_db, hq, hfind, hv, hcf]

/-- Witness for C10 at a concrete store holding a valid record, under a
failing lookup and under a failing commit. -/
theorem c10_store_exceptions_fail_closed_witness :
    AuthService.verify_api_key_from_db { queryFails := true, commitFails := false }
      dbW ({}) 5 "lls_wit" = ((false, false), dbW, ({} : RedisCache)) ∧
    AuthService.verify_api_key_from_db { queryFails := false, commitFails := true }
      dbW ({}) 5 "lls_wit" = ((false, false), dbW, ({} : RedisCache)) := by
  constructor
  · exact c10_store_exceptions_fail_closed.1 dbW ({}) 5 "lls_wit" _ rfl
  · exact c10_store_exceptions_fail_closed.2 dbW ({}) 5 "lls_wit" _
      { api_key := "lls_wit", name := "n" } rfl (by decide) (by decide)


end Lingualink
